import Mathlib

/-!
Verification of the object-extraction and structural-diff engine of
`pdf-compare-via-comparing-pdf-objects` (`src/main.py`, function `compare_pdfs`).

The engine is embedded shallowly:
* an input byte stream is a `List Nat` (one `Nat` per byte, values 0..255);
* Python's binary-file line iteration is `splitLines` (split after each 0x0A,
  keeping the terminator);
* Python strings (the extracted object types) are `List Nat` of Unicode code
  points, produced by a strict UTF-8 decoder `utf8Decode` mirroring
  `bytes.decode("utf-8")`;
* the scanner loop of `compare_pdfs` (lines 34-69 of `src/main.py`) is `scan`,
  producing a list of `PdfObj` records; a raised `UnicodeDecodeError` or
  `IndexError` is modelled as `Except.error`;
* the three comparison phases (lines 71-151) are `compareScanned`; the printed
  diagnostic lines are modelled as structured `Diag` values carrying exactly
  the data interpolated into each `print`; `sys.exit(0)` / `sys.exit(1)` is the
  boolean `Verdict.matched`.  CPython iterates `set` objects in an unspecified
  order; the model determinizes that order (`List.dedup` of first occurrences),
  which affects only the order of report lines, never membership or the verdict.
-/

/-- Marker `b"obj"` from line 43 of `src/main.py`. -/
def objMarker : List Nat := [111, 98, 106]

/-- Marker `b"endobj"` from line 58 of `src/main.py`. -/
def endobjMarker : List Nat := [101, 110, 100, 111, 98, 106]

/-- Marker `b"/Type"` from line 49 of `src/main.py`. -/
def typeMarker : List Nat := [47, 84, 121, 112, 101]

/-- Marker `b"stream"` from line 54 of `src/main.py`. -/
def streamMarker : List Nat := [115, 116, 114, 101, 97, 109]

/-- String `"_none_"` from line 61 of `src/main.py`, as code points. -/
def noneName : List Nat := [95, 110, 111, 110, 101, 95]

/-- Boolean test that `p` occurs at the head of `l`. -/
def hasLead : List Nat → List Nat → Bool
  | [], _ => true
  | _ :: _, [] => false
  | p :: ps, x :: xs => p == x && hasLead ps xs

/-- Boolean test that `p` occurs contiguously somewhere in `l`; this is
Python's `p in l` on `bytes` values. -/
def containsSeq (p : List Nat) : List Nat → Bool
  | [] => hasLead p []
  | x :: xs => hasLead p (x :: xs) || containsSeq p xs

/-- Helper for `splitLines`: `acc` is the current (reversed) partial line. -/
def splitLinesAux : List Nat → List Nat → List (List Nat)
  | [], acc => if acc.isEmpty then [] else [acc.reverse]
  | b :: rest, acc =>
    if b == 10 then (b :: acc).reverse :: splitLinesAux rest []
    else splitLinesAux rest (b :: acc)

/-- Python's line iteration over a binary file: split after every `0x0A`,
keeping the terminator; a final unterminated chunk is also a line. -/
def splitLines (bs : List Nat) : List (List Nat) := splitLinesAux bs []

/-- Continuation byte test for UTF-8 (`0x80..0xBF`). -/
def isCont (b : Nat) : Bool := 128 ≤ b && b ≤ 191

/-- Strict UTF-8 decoding of a byte list to its code points, `none` on any
ill-formed sequence; mirrors CPython's `bytes.decode("utf-8")` (which rejects
overlong forms, surrogates and code points above `0x10FFFF`). -/
def utf8Decode : List Nat → Option (List Nat)
  | [] => some []
  | b :: rest =>
    if b < 128 then (utf8Decode rest).map (fun cps => b :: cps)
    else
      match rest with
      | [] => none
      | c1 :: rest1 =>
        if 194 ≤ b && b ≤ 223 then
          if isCont c1 then
            (utf8Decode rest1).map (fun cps => ((b - 192) * 64 + (c1 - 128)) :: cps)
          else none
        else
          match rest1 with
          | [] => none
          | c2 :: rest2 =>
            if b == 224 then
              if (160 ≤ c1 && c1 ≤ 191) && isCont c2 then
                (utf8Decode rest2).map
                  (fun cps => ((b - 224) * 4096 + (c1 - 128) * 64 + (c2 - 128)) :: cps)
              else none
            else if (225 ≤ b && b ≤ 236) || b == 238 || b == 239 then
              if isCont c1 && isCont c2 then
                (utf8Decode rest2).map
                  (fun cps => ((b - 224) * 4096 + (c1 - 128) * 64 + (c2 - 128)) :: cps)
              else none
            else if b == 237 then
              if (128 ≤ c1 && c1 ≤ 159) && isCont c2 then
                (utf8Decode rest2).map
                  (fun cps => ((b - 224) * 4096 + (c1 - 128) * 64 + (c2 - 128)) :: cps)
              else none
            else
              match rest2 with
              | [] => none
              | c3 :: rest3 =>
                if b == 240 then
                  if (144 ≤ c1 && c1 ≤ 191) && isCont c2 && isCont c3 then
                    (utf8Decode rest3).map
                      (fun cps =>
                        ((b - 240) * 262144 + (c1 - 128) * 4096 +
                          (c2 - 128) * 64 + (c3 - 128)) :: cps)
                  else none
                else if 241 ≤ b && b ≤ 243 then
                  if isCont c1 && isCont c2 && isCont c3 then
                    (utf8Decode rest3).map
                      (fun cps =>
                        ((b - 240) * 262144 + (c1 - 128) * 4096 +
                          (c2 - 128) * 64 + (c3 - 128)) :: cps)
                  else none
                else if b == 244 then
                  if (128 ≤ c1 && c1 ≤ 143) && isCont c2 && isCont c3 then
                    (utf8Decode rest3).map
                      (fun cps =>
                        ((b - 240) * 262144 + (c1 - 128) * 4096 +
                          (c2 - 128) * 64 + (c3 - 128)) :: cps)
                  else none
                else none

/-- Code points stripped by Python's `str.strip()` (Unicode whitespace). -/
def pySpace : List Nat :=
  [9, 10, 11, 12, 13, 28, 29, 30, 31, 32, 133, 160, 5760,
   8192, 8193, 8194, 8195, 8196, 8197, 8198, 8199, 8200, 8201, 8202,
   8232, 8233, 8239, 8287, 12288]

/-- Whitespace test for `stripCp`. -/
def isPySpace (c : Nat) : Bool := pySpace.contains c

/-- Python's `str.strip()`: drop whitespace code points from both ends. -/
def stripCp (s : List Nat) : List Nat :=
  ((s.dropWhile isPySpace).reverse.dropWhile isPySpace).reverse

/-- Python's `str.split(" ")`: split on every single space (code point 32),
producing empty pieces between consecutive spaces; always non-empty. -/
def splitOnSpace : List Nat → List (List Nat)
  | [] => [[]]
  | c :: rest =>
    if c == 32 then [] :: splitOnSpace rest
    else
      match splitOnSpace rest with
      | [] => [[c]]
      | t :: ts => (c :: t) :: ts

/-- Failure modes of the scanner loop: `byte_string.decode("utf-8")` raising
`UnicodeDecodeError`, or `.split(" ")[1]` raising `IndexError` (line 51 of
`src/main.py`). -/
inductive ScanErr where
  | badUtf8 : ScanErr
  | badTypeLine : ScanErr
  deriving DecidableEq

instance {ε α : Type} [DecidableEq ε] [DecidableEq α] : DecidableEq (Except ε α) := fun a b =>
  match a, b with
  | .ok x, .ok y =>
    if h : x = y then .isTrue (by rw [h]) else .isFalse (by simp [h])
  | .error x, .error y =>
    if h : x = y then .isTrue (by rw [h]) else .isFalse (by simp [h])
  | .ok _, .error _ => .isFalse (by simp)
  | .error _, .ok _ => .isFalse (by simp)

/-- Line 51 of `src/main.py`:
`byte_string.decode("utf-8").strip().split(" ")[1][1:]`. -/
def extractType (line : List Nat) : Except ScanErr (List Nat) :=
  match utf8Decode line with
  | none => .error ScanErr.badUtf8
  | some cps =>
    match splitOnSpace (stripCp cps) with
    | _ :: t :: _ => .ok (t.drop 1)
    | _ => .error ScanErr.badTypeLine

/-- Mutable state of the scanner loop: `in_obj`, `cur_obj`,
`cur_object_type` (code points; `[]` is Python's falsy `""`) and
`contains_stream` of `src/main.py` lines 36-39. -/
structure ScanState where
  inObj : Bool
  curObj : List (List Nat)
  curType : List Nat
  hasStream : Bool
  deriving DecidableEq

/-- Initial scanner state (lines 36-39 of `src/main.py`). -/
def initState : ScanState := ⟨false, [], [], false⟩

/-- Python's `b"\n".join(cur_obj)` from line 65 of `src/main.py`. -/
def joinNl : List (List Nat) → List Nat
  | [] => []
  | [l] => l
  | l :: ls => l ++ 10 :: joinNl ls

/-- One emitted object.  A single record carries both views the source keeps:
`pdf_objs` stores `(line_no, cur_obj, cur_object_type)` and `objs_by_type`
stores `(line_no, b"\n".join(cur_obj), contains_stream)` (lines 63-66). -/
structure PdfObj where
  lineNo : Nat
  rawLines : List (List Nat)
  objType : List Nat
  rawContent : List Nat
  hasStream : Bool
  deriving DecidableEq

/-- The object-open check (lines 43-45 of `src/main.py`): a line containing
`obj` while no object is open sets the flag and resets the body accumulator. -/
def openStep (line : List Nat) (st : ScanState) : ScanState :=
  if containsSeq objMarker line && !st.inObj then
    { st with inObj := true, curObj := [] }
  else st

/-- The sticky `contains_stream` update (lines 54-55 of `src/main.py`). -/
def streamStep (line : List Nat) (st : ScanState) : ScanState :=
  if containsSeq streamMarker line then { st with hasStream := true } else st

/-- The in-object processing (lines 47-55 of `src/main.py`): append the line
to the body, run the `/Type` extraction when the marker occurs (each match
overwrites `cur_object_type`), update the stream flag. -/
def bodyStep (line : List Nat) (st : ScanState) : Except ScanErr ScanState :=
  if st.inObj then
    let stA := { st with curObj := st.curObj ++ [line] }
    if containsSeq typeMarker line then
      match extractType line with
      | .error e => .error e
      | .ok t => .ok (streamStep line { stA with curType := t })
    else .ok (streamStep line stA)
  else .ok st

/-- The unconditional object-close check (lines 57-69 of `src/main.py`):
a line containing `endobj` emits the accumulated object (with the `_none_`
default type) and resets all four state components. -/
def closeStep (ln : Nat) (line : List Nat) (st : ScanState) : ScanState × List PdfObj :=
  if containsSeq endobjMarker line then
    (initState,
      [{ lineNo := ln,
         rawLines := st.curObj,
         objType := if st.curType = [] then noneName else st.curType,
         rawContent := joinNl st.curObj,
         hasStream := st.hasStream }])
  else (st, [])

/-- One iteration of the scanner loop (lines 41-69 of `src/main.py`) on the
line numbered `ln`: the open check, the in-object processing and the close
check, in the source's order, emitting at most one object. -/
def scanStep (ln : Nat) (line : List Nat) (st : ScanState) :
    Except ScanErr (ScanState × List PdfObj) :=
  match bodyStep line (openStep line st) with
  | .error e => .error e
  | .ok st2 => .ok (closeStep ln line st2)

/-- The scanner loop over the remaining lines, `ln` being the number of the
first of them. -/
def scanAux (ln : Nat) (st : ScanState) : List (List Nat) → Except ScanErr (List PdfObj)
  | [] => .ok []
  | l :: ls =>
    match scanStep ln l st with
    | .error e => .error e
    | .ok (st', out) =>
      match scanAux (ln + 1) st' ls with
      | .error e => .error e
      | .ok rest => .ok (out ++ rest)

/-- The object scanner: the `for line_no, byte_string in enumerate(f)` loop of
`compare_pdfs` applied to one document's byte stream. -/
def scan (bytes : List Nat) : Except ScanErr (List PdfObj) :=
  scanAux 0 initState (splitLines bytes)

/-- One diagnostic line of the report, carrying exactly the data the source
interpolates into the corresponding `print`:
* `typesOnly side ts` — lines 80-87, the types present only on one side;
* `diffHeader side ty n` — lines 105-107 / 118-120, "pdfX has n different ty object(s)";
* `streamDiag side ln len` — lines 110-112 / 123-125, a stream object rendered
  as its line number and byte length only;
* `rawDiag side ln content` — lines 114 / 127, a non-stream object rendered
  with its raw bytes;
* `posDiag c1 c2` — line 144, the phase-3 "don't match" line.
`side = true` refers to `pdf1`. -/
inductive Diag where
  | typesOnly : Bool → List (List Nat) → Diag
  | diffHeader : Bool → List Nat → Nat → Diag
  | streamDiag : Bool → Nat → Nat → Diag
  | rawDiag : Bool → Nat → List Nat → Diag
  | posDiag : List Nat → List Nat → Diag
  deriving DecidableEq

/-- Result of the comparison: `matched` is `sys.exit(0)` versus `sys.exit(1)`,
`report` the ordered diagnostic lines printed. -/
structure Verdict where
  matched : Bool
  report : List Diag
  deriving DecidableEq

/-- Triple `(line_no, b"\n".join(cur_obj), contains_stream)` stored in
`objs_by_type` (line 65 of `src/main.py`). -/
abbrev Triple := Nat × List Nat × Bool

/-- Distinct declared types of a document in scan order: the source's
`set(obj[2] for obj in pdf_objs[pdf])` (lines 72-73), determinized. -/
def dtypes (objs : List PdfObj) : List (List Nat) :=
  (objs.map PdfObj.objType).dedup

/-- The list `objs_by_type[pdf][ty]`: triples of the objects of type `ty`
in scan order. -/
def triplesList (objs : List PdfObj) (ty : List Nat) : List Triple :=
  (objs.filter (fun o => decide (o.objType = ty))).map
    (fun o => (o.lineNo, o.rawContent, o.hasStream))

/-- The set `set(objs_by_type[pdf][ty])` (lines 97-98), determinized as a
deduplicated list. -/
def triplesOf (objs : List PdfObj) (ty : List Nat) : List Triple :=
  (triplesList objs ty).dedup

/-- Phase-1 diagnostics (lines 75-87): the types present in one document's
type set and missing from the other's. -/
def typeDiags (t1 t2 : List (List Nat)) : List Diag :=
  let only1 := t1.filter (fun t => !decide (t ∈ t2))
  let only2 := t2.filter (fun t => !decide (t ∈ t1))
  (if only1.isEmpty then [] else [Diag.typesOnly true only1]) ++
    (if only2.isEmpty then [] else [Diag.typesOnly false only2])

/-- Rendering of one phase-2 discrepancy (lines 108-114 / 121-127): a stream
object contributes only its line number and byte length, a non-stream object
its raw bytes. -/
def renderDiag (side : Bool) (x : Triple) : Diag :=
  if x.2.2 then Diag.streamDiag side x.1 x.2.1.length
  else Diag.rawDiag side x.1 x.2.1

/-- Phase-2 diagnostics for one type (lines 96-127): both directions of the
symmetric difference of the two triple sets, each non-empty direction headed
by its count line. -/
def phase2For (objs1 objs2 : List PdfObj) (ty : List Nat) : List Diag :=
  let s1 := triplesOf objs1 ty
  let s2 := triplesOf objs2 ty
  let d12 := s1.filter (fun x => !decide (x ∈ s2))
  let d21 := s2.filter (fun x => !decide (x ∈ s1))
  (if d12.isEmpty then []
   else Diag.diffHeader true ty d12.length :: d12.map (renderDiag true)) ++
    (if d21.isEmpty then []
     else Diag.diffHeader false ty d21.length :: d21.map (renderDiag false))

/-- Phase-3 sorting key: `sorted(..., key=lambda x: x[0])` (lines 138-139). -/
def leKey (a b : Triple) : Prop := a.1 ≤ b.1

instance : DecidableRel leKey := fun a b => Nat.decLe a.1 b.1

/-- Phase-3 sort of one type's triples by their `line_no` component. -/
def sortTriples (l : List Triple) : List Triple := List.insertionSort leKey l

/-- Phase-3 diagnostics for one type (lines 136-144): zip the two documents'
triples sorted by `line_no` and report every pair whose `line_no` components
differ, rendering both raw contents. -/
def phase3For (objs1 objs2 : List PdfObj) (ty : List Nat) : List Diag :=
  ((sortTriples (triplesList objs1 ty)).zip (sortTriples (triplesList objs2 ty))).flatMap
    (fun z => if z.1.1 = z.2.1 then [] else [Diag.posDiag z.1.2.1 z.2.2.1])

/-- All phase-2 diagnostics, iterating over `pdf1_obj_types` (line 96). -/
def p2All (objs1 objs2 : List PdfObj) : List Diag :=
  (dtypes objs1).flatMap (phase2For objs1 objs2)

/-- All phase-3 diagnostics, iterating over `pdf1_obj_types` (line 136). -/
def p3All (objs1 objs2 : List PdfObj) : List Diag :=
  (dtypes objs1).flatMap (phase3For objs1 objs2)

/-- The three-phase structural differ (lines 71-151 of `src/main.py`) on the
two scanned object sequences: phase 1 short-circuits via `sys.exit(1)`; a
non-empty phase 2 exits after scanning every type; otherwise phase 3 decides. -/
def compareScanned (objs1 objs2 : List PdfObj) : Verdict :=
  let td := typeDiags (dtypes objs1) (dtypes objs2)
  if td.isEmpty then
    let p2 := p2All objs1 objs2
    if p2.isEmpty then
      let p3 := p3All objs1 objs2
      if p3.isEmpty then ⟨true, []⟩ else ⟨false, p3⟩
    else ⟨false, p2⟩
  else ⟨false, td⟩

/-- The differ with phase 3 removed; `compareScanned` is proved to coincide
with it on scanner outputs (the spec's redundancy remark). -/
def compareScannedNoPhase3 (objs1 objs2 : List PdfObj) : Verdict :=
  let td := typeDiags (dtypes objs1) (dtypes objs2)
  if td.isEmpty then
    let p2 := p2All objs1 objs2
    if p2.isEmpty then ⟨true, []⟩ else ⟨false, p2⟩
  else ⟨false, td⟩

/-- The whole engine `compare_pdfs`: scan both byte streams (first `pdf1`,
then `pdf2`, as the `for pdf_file in [pdf1, pdf2]` loop does), then run the
three-phase differ; a scanner exception propagates. -/
def compare_pdfs (pdf1 pdf2 : List Nat) : Except ScanErr Verdict :=
  match scan pdf1 with
  | .error e => .error e
  | .ok o1 =>
    match scan pdf2 with
    | .error e => .error e
    | .ok o2 => .ok (compareScanned o1 o2)

/-- One step of the declared-type fold: a line containing `/Type` replaces the
accumulated type with that line's extraction (mirroring the unconditional
assignment on line 50 of `src/main.py`), any other line keeps it. -/
def typeAcc (acc : Except ScanErr (List Nat)) (line : List Nat) : Except ScanErr (List Nat) :=
  match acc with
  | .error e => .error e
  | .ok t => if containsSeq typeMarker line then extractType line else .ok t

/-- The declared type accumulated over a list of body lines, starting from the
empty string: the extraction of the LAST line containing `/Type`, or `[]` when
no line contains the marker. -/
def lastType (lines : List (List Nat)) : Except ScanErr (List Nat) :=
  lines.foldl typeAcc (.ok [])

/-- Invariant of the scanner state between loop iterations: outside an object
the state is exactly the initial one, and the pending declared type is always
the `lastType` fold of the accumulated body lines. -/
def InvSt (st : ScanState) : Prop :=
  (st.inObj = false → st = initState) ∧ lastType st.curObj = .ok st.curType

instance : IsTotal Triple leKey := ⟨fun a b => Nat.le_total a.1 b.1⟩

instance : IsTrans Triple leKey := ⟨fun _ _ _ => Nat.le_trans⟩

/-- Byte stream of `1 0 obj`, `/Type /A`, `/Type /B`, `endobj` (four
newline-terminated lines): one object carrying two `/Type` lines with
different values (`A` then `B`). -/
def exTwoTypes : List Nat := [49, 32, 48, 32, 111, 98, 106, 10, 47, 84, 121, 112, 101, 32, 47, 65, 10, 47, 84, 121, 112, 101, 32, 47, 66, 10, 101, 110, 100, 111, 98, 106, 10]

/-- The single object the scanner emits for `exTwoTypes`: its declared type is
`B` (code point 66), from the second `/Type` line. -/
def exTwoTypesObj : PdfObj :=
  ⟨3, [[49, 32, 48, 32, 111, 98, 106, 10], [47, 84, 121, 112, 101, 32, 47, 65, 10], [47, 84, 121, 112, 101, 32, 47, 66, 10], [101, 110, 100, 111, 98, 106, 10]], [66], [49, 32, 48, 32, 111, 98, 106, 10, 10, 47, 84, 121, 112, 101, 32, 47, 65, 10, 10, 47, 84, 121, 112, 101, 32, 47, 66, 10, 10, 101, 110, 100, 111, 98, 106, 10], false⟩

/-- Byte stream of `1 0 obj`, `/Type`, `endobj`: the `/Type` line has a single
whitespace-delimited token, so the extraction raises `IndexError`. -/
def exTypeAlone : List Nat := [49, 32, 48, 32, 111, 98, 106, 10, 47, 84, 121, 112, 101, 10, 101, 110, 100, 111, 98, 106, 10]

/-- Byte stream of the single line `endobj/Type`: a lone close-marker line
that also contains `/Type` inside a single token. -/
def exEndobjType : List Nat := [101, 110, 100, 111, 98, 106, 47, 84, 121, 112, 101, 10]

/-- Byte stream of the single line `endobj`: a lone close-marker line outside
any object. -/
def exEndobjLine : List Nat := [101, 110, 100, 111, 98, 106, 10]

/-- The single-line object the scanner emits for `exEndobjLine`. -/
def exEndobjObj : PdfObj :=
  ⟨0, [[101, 110, 100, 111, 98, 106, 10]], noneName, [101, 110, 100, 111, 98, 106, 10], false⟩

/-- One-object document of type `_none_` at line 5 with raw content `abc` and
no stream, for concrete differ scenarios. -/
def wNonStream1 : List PdfObj := [⟨5, [[97, 98, 99]], noneName, [97, 98, 99], false⟩]

/-- Like `wNonStream1` but with raw content `abd`: same type, same line
number, different content. -/
def wNonStream2 : List PdfObj := [⟨5, [[97, 98, 100]], noneName, [97, 98, 100], false⟩]

/-- One-object document of type `_none_` at line 5 with raw content `abc` and
a stream flag, for the stream-redaction scenario. -/
def wStream1 : List PdfObj := [⟨5, [[97, 98, 99]], noneName, [97, 98, 99], true⟩]

/-- Like `wStream1` but with raw content `xyz`. -/
def wStream2 : List PdfObj := [⟨5, [[120, 121, 122]], noneName, [120, 121, 122], true⟩]

/-- One-object document of declared type `A` (code point 65). -/
def wTypeA : List PdfObj := [⟨0, [[65]], [65], [65], false⟩]


/-- Occurrence at the head is a particular occurrence. -/
theorem containsSeq_of_hasLead {p l : List Nat} (h : hasLead p l = true) :
    containsSeq p l = true := by
  cases l with
  | nil => simpa [containsSeq] using h
  | cons x xs => simp [containsSeq, h]

/-- Dropping a left part of the pattern preserves head occurrence, up to
turning it into a plain occurrence. -/
theorem containsSeq_of_hasLead_append {u v : List Nat} :
    ∀ {l : List Nat}, hasLead (u ++ v) l = true → containsSeq v l = true := by
  induction u with
  | nil => exact fun h => containsSeq_of_hasLead h
  | cons a us ih =>
    intro l h
    cases l with
    | nil => simp [hasLead] at h
    | cons x xs =>
      simp only [hasLead, List.cons_append, Bool.and_eq_true] at h
      simp [containsSeq, ih h.2]

/-- A line containing `u ++ v` contains `v`. -/
theorem containsSeq_append_left (u v : List Nat) :
    ∀ {l : List Nat}, containsSeq (u ++ v) l = true → containsSeq v l = true := by
  intro l
  induction l with
  | nil =>
    intro h
    simp only [containsSeq] at h ⊢
    exact match u, h with
    | [], h => h
  | cons x xs ih =>
    intro h
    simp only [containsSeq, Bool.or_eq_true] at h ⊢
    rcases h with h | h
    · rcases Bool.or_eq_true _ _ |>.mpr (Or.inl (containsSeq_of_hasLead_append h)) with _
      exact Or.elim (by simpa [containsSeq] using containsSeq_of_hasLead_append (u := u) (v := v) h)
        (fun h => Or.inl h) (fun h => Or.inr h)
    · exact Or.inr (ih h)

/-- A line containing `endobj` contains `obj` (the close marker ends with the
open marker, which is why a bare `endobj` line also opens an object). -/
theorem obj_of_endobj {l : List Nat} (h : containsSeq endobjMarker l = true) :
    containsSeq objMarker l = true := by
  have h' : containsSeq ([101, 110, 100] ++ objMarker) l = true := by
    simpa [endobjMarker, objMarker] using h
  exact containsSeq_append_left [101, 110, 100] objMarker h'

@[simp]
theorem streamStep_inObj (line : List Nat) (st : ScanState) :
    (streamStep line st).inObj = st.inObj := by
  unfold streamStep; split <;> rfl

@[simp]
theorem streamStep_curObj (line : List Nat) (st : ScanState) :
    (streamStep line st).curObj = st.curObj := by
  unfold streamStep; split <;> rfl

@[simp]
theorem streamStep_curType (line : List Nat) (st : ScanState) :
    (streamStep line st).curType = st.curType := by
  unfold streamStep; split <;> rfl

/-- The `lastType` fold over one more line. -/
theorem lastType_append (lines : List (List Nat)) (line : List Nat) :
    lastType (lines ++ [line]) = typeAcc (lastType lines) line := by
  simp [lastType, List.foldl_append]

/-- The open check never turns the flag off, and keeps the whole state when an
object is already open. -/
theorem openStep_of_inObj {st : ScanState} (line : List Nat) (h : st.inObj = true) :
    openStep line st = st := by
  simp [openStep, h]

/-- After the open check on a line containing `obj`, the flag is set. -/
theorem openStep_inObj_of_obj {line : List Nat} (st : ScanState)
    (h : containsSeq objMarker line = true) : (openStep line st).inObj = true := by
  unfold openStep
  cases hin : st.inObj with
  | true => simp [h, hin]
  | false => simp [h, hin]

/-- The open check preserves the scanner invariant. -/
theorem openStep_inv {st : ScanState} (line : List Nat) (h : InvSt st) :
    InvSt (openStep line st) := by
  unfold openStep
  split
  · rename_i hc
    simp only [Bool.and_eq_true, Bool.not_eq_true'] at hc
    have hst := h.1 hc.2
    subst hst
    exact ⟨fun hfalse => by simp at hfalse, by simp [lastType, initState, List.foldl]⟩
  · exact h

/-- When the open check leaves the flag off, the state was and stays initial. -/
theorem openStep_not_inObj {st : ScanState} {line : List Nat} (hInv : InvSt st)
    (h : (openStep line st).inObj = false) : openStep line st = initState := by
  by_cases hc : (containsSeq objMarker line && !st.inObj) = true
  · exfalso
    unfold openStep at h
    rw [if_pos hc] at h
    simp at h
  · unfold openStep at h ⊢
    rw [if_neg hc] at h ⊢
    exact hInv.1 h

/-- The in-object processing: how it transforms the state, in both flag cases. -/
theorem bodyStep_ok {line : List Nat} {st st2 : ScanState}
    (h : bodyStep line st = .ok st2) :
    (st.inObj = false → st2 = st) ∧
      (st.inObj = true →
        st2.inObj = true ∧ st2.curObj = st.curObj ++ [line] ∧
          (if containsSeq typeMarker line = true then extractType line = .ok st2.curType
           else st2.curType = st.curType)) := by
  unfold bodyStep at h
  by_cases hin : st.inObj = true
  · rw [if_pos hin] at h
    refine ⟨fun hfalse => absurd hin (by simp [hfalse]), fun _ => ?_⟩
    by_cases hty : containsSeq typeMarker line = true
    · rw [if_pos hty] at h
      cases hext : extractType line with
      | error e => simp only [hext] at h; exact Except.noConfusion h
      | ok t =>
        simp only [hext] at h
        injection h with h
        subst h
        refine ⟨by simp [hin], by simp, ?_⟩
        simp [hty, hext]
    · rw [if_neg hty] at h
      injection h with h
      subst h
      refine ⟨by simp [hin], by simp, ?_⟩
      simp [hty]
  · rw [if_neg hin] at h
    injection h with h
    subst h
    exact ⟨fun _ => rfl, fun htrue => absurd htrue hin⟩

/-- The initial state satisfies the scanner invariant. -/
theorem invSt_init : InvSt initState := ⟨fun _ => rfl, rfl⟩

/-- One loop iteration preserves the invariant, and any emitted object closes
on the current line, carries that line as its last raw line, has raw content
the newline-join of its raw lines, and has the `lastType` of its raw lines
(`_none_`-defaulted) as declared type. -/
theorem scanStep_ok {ln : Nat} {line : List Nat} {st st' : ScanState} {out : List PdfObj}
    (hInv : InvSt st) (h : scanStep ln line st = .ok (st', out)) :
    InvSt st' ∧
      (out = [] ∨
        ∃ o, out = [o] ∧ containsSeq endobjMarker line = true ∧ o.lineNo = ln ∧
          o.rawContent = joinNl o.rawLines ∧ o.rawLines.getLast? = some line ∧
          ∃ t, lastType o.rawLines = .ok t ∧
            o.objType = (if t = [] then noneName else t)) := by
  unfold scanStep at h
  have hInv1 : InvSt (openStep line st) := openStep_inv line hInv
  cases hbody : bodyStep line (openStep line st) with
  | error e => rw [hbody] at h; exact Except.noConfusion h
  | ok st2 =>
    rw [hbody] at h
    injection h with h
    have hb := bodyStep_ok hbody
    have hInv2 : InvSt st2 := by
      by_cases h1 : (openStep line st).inObj = true
      · obtain ⟨hio, hco, hct⟩ := hb.2 h1
        refine ⟨fun hfalse => absurd hio (by simp [hfalse]), ?_⟩
        rw [hco, lastType_append, hInv1.2]
        by_cases hty : containsSeq typeMarker line = true
        · rw [if_pos hty] at hct
          simp only [typeAcc, hty, if_pos]
          exact hct
        · rw [if_neg hty] at hct
          simp [typeAcc, hty, hct]
      · have heq := hb.1 (by simpa using h1)
        rw [heq]
        exact hInv1
    unfold closeStep at h
    by_cases hend : containsSeq endobjMarker line = true
    · rw [if_pos hend] at h
      injection h with h1 h2
      subst h1
      subst h2
      have hin1 : (openStep line st).inObj = true :=
        openStep_inObj_of_obj st (obj_of_endobj hend)
      obtain ⟨_, hco, _⟩ := hb.2 hin1
      refine ⟨invSt_init, Or.inr ⟨_, rfl, hend, rfl, rfl, ?_, st2.curType, hInv2.2, rfl⟩⟩
      show st2.curObj.getLast? = some line
      rw [hco]
      exact List.getLast?_concat _
    · rw [if_neg hend] at h
      injection h with h1 h2
      subst h1
      subst h2
      exact ⟨hInv2, Or.inl rfl⟩

/-- Properties of every object emitted by the scanner loop over `ls`: each
closed at some input line (whose 0-indexed number it records and which is its
last raw line, containing `endobj`), its raw content is the newline-join of
its raw lines, its declared type is the `_none_`-defaulted `lastType` of its
raw lines, and the emitted sequence has strictly increasing line numbers. -/
theorem scanAux_ok (ls : List (List Nat)) :
    ∀ ln st objs, InvSt st → scanAux ln st ls = .ok objs →
      (∀ o ∈ objs,
        (∃ i l, ls.get? i = some l ∧ o.lineNo = ln + i ∧
          containsSeq endobjMarker l = true ∧ o.rawLines.getLast? = some l ∧
          o.rawContent = joinNl o.rawLines ∧
          ∃ t, lastType o.rawLines = .ok t ∧
            o.objType = (if t = [] then noneName else t)) ∧
        ln ≤ o.lineNo) ∧
      List.Pairwise (fun a b => a.lineNo < b.lineNo) objs := by
  induction ls with
  | nil =>
    intro ln st objs _ h
    injection h with h
    subst h
    exact ⟨fun o ho => absurd ho (List.not_mem_nil o), List.Pairwise.nil⟩
  | cons l ls ih =>
    intro ln st objs hInv h
    unfold scanAux at h
    cases hstep : scanStep ln l st with
    | error e =>
      simp only [hstep] at h
      exact Except.noConfusion h
    | ok p =>
      obtain ⟨st', out⟩ := p
      simp only [hstep] at h
      cases hrest : scanAux (ln + 1) st' ls with
      | error e =>
        simp only [hrest] at h
        exact Except.noConfusion h
      | ok rest =>
        simp only [hrest] at h
        injection h with h
        subst h
        obtain ⟨hInv', hout⟩ := scanStep_ok hInv hstep
        obtain ⟨hmemrest, hpwrest⟩ := ih (ln + 1) st' rest hInv' hrest
        constructor
        · intro o ho
          rcases List.mem_append.mp ho with ho | ho
          · rcases hout with h0 | ⟨o', ho', hend, hln, hrc, hlast, ht⟩
            · rw [h0] at ho
              exact absurd ho (List.not_mem_nil o)
            · rw [ho'] at ho
              have heq : o = o' := by simpa using ho
              subst heq
              exact ⟨⟨0, l, rfl, by simpa using hln, hend, hlast, hrc, ht⟩, le_of_eq hln.symm⟩
          · obtain ⟨⟨i, l', hg, hlnEq, hfacts⟩, hle⟩ := hmemrest o ho
            exact ⟨⟨i + 1, l', hg, by omega, hfacts⟩, by omega⟩
        · rcases hout with h0 | ⟨o', ho', _, hln, _⟩
          · rw [h0]
            simpa using hpwrest
          · rw [ho']
            simp only [List.singleton_append, List.pairwise_cons]
            refine ⟨fun b hb => ?_, hpwrest⟩
            have hble := (hmemrest b hb).2
            rw [hln]
            omega

/-- Per-object properties of a successful scan: every emitted object records
the 0-indexed number of an input line that contains `endobj`, that line is the
last of its raw lines, its raw content is their newline-join, and its declared
type is the `_none_`-defaulted `lastType` fold of its raw lines. -/
theorem scan_obj_props {bytes : List Nat} {objs : List PdfObj} (h : scan bytes = .ok objs) :
    ∀ o ∈ objs, ∃ l, (splitLines bytes).get? o.lineNo = some l ∧
      containsSeq endobjMarker l = true ∧ o.rawLines.getLast? = some l ∧
      o.rawContent = joinNl o.rawLines ∧
      ∃ t, lastType o.rawLines = .ok t ∧ o.objType = (if t = [] then noneName else t) := by
  intro o ho
  obtain ⟨⟨i, l, hg, hln, hend, hlast, hrc, ht⟩, _⟩ :=
    ((scanAux_ok (splitLines bytes) 0 initState objs invSt_init h).1 o ho)
  exact ⟨l, by simpa [hln] using hg, hend, hlast, hrc, ht⟩

/-- A successful scan emits objects with strictly increasing line numbers. -/
theorem scan_pairwise {bytes : List Nat} {objs : List PdfObj} (h : scan bytes = .ok objs) :
    List.Pairwise (fun a b => a.lineNo < b.lineNo) objs :=
  (scanAux_ok (splitLines bytes) 0 initState objs invSt_init h).2

/-- The in-object processing can only fail through the `/Type` extraction. -/
theorem bodyStep_total (line : List Nat) (st : ScanState)
    (hl : containsSeq typeMarker line = true → ∃ t, extractType line = .ok t) :
    ∃ st2, bodyStep line st = .ok st2 := by
  unfold bodyStep
  by_cases hin : st.inObj = true
  · rw [if_pos hin]
    by_cases hty : containsSeq typeMarker line = true
    · rw [if_pos hty]
      obtain ⟨t, ht⟩ := hl hty
      rw [ht]
      exact ⟨_, rfl⟩
    · rw [if_neg hty]
      exact ⟨_, rfl⟩
  · rw [if_neg hin]
    exact ⟨_, rfl⟩

/-- The scanner loop succeeds whenever every `/Type` line extracts. -/
theorem scanAux_total (ls : List (List Nat)) :
    ∀ ln st, (∀ l ∈ ls, containsSeq typeMarker l = true → ∃ t, extractType l = .ok t) →
      ∃ objs, scanAux ln st ls = .ok objs := by
  induction ls with
  | nil => exact fun ln st _ => ⟨[], rfl⟩
  | cons l ls ih =>
    intro ln st hl
    obtain ⟨st2, hb⟩ := bodyStep_total l (openStep l st) (hl l (List.mem_cons_self l ls))
    rcases hcs : closeStep ln l st2 with ⟨stN, outN⟩
    obtain ⟨rest, hr⟩ := ih (ln + 1) stN (fun x hx hty => hl x (List.mem_cons_of_mem l hx) hty)
    have hs : scanStep ln l st = .ok (stN, outN) := by
      unfold scanStep
      simp only [hb]
      rw [hcs]
    refine ⟨outN ++ rest, ?_⟩
    simp only [scanAux, hs, hr]

/-- The scanner is total on byte streams all of whose `/Type` lines extract. -/
theorem scan_total (bytes : List Nat)
    (h : ∀ l ∈ splitLines bytes, containsSeq typeMarker l = true → ∃ t, extractType l = .ok t) :
    ∃ objs, scan bytes = .ok objs :=
  scanAux_total (splitLines bytes) 0 initState h

theorem ite_nil_cons {α : Type} {c : Bool} {x : α} {xs : List α} :
    (if c then ([] : List α) else x :: xs) = [] ↔ c = true := by
  cases c <;> simp

theorem ite_nil_singleton_prop {α : Type} {c : Prop} [Decidable c] {d : α} :
    (if c then ([] : List α) else [d]) = [] ↔ c := by
  by_cases h : c <;> simp [h]

/-- Every phase-1 diagnostic is a `typesOnly` line. -/
theorem typeDiags_shape {t1 t2 : List (List Nat)} {d : Diag} (h : d ∈ typeDiags t1 t2) :
    ∃ s ts, d = Diag.typesOnly s ts := by
  simp only [typeDiags] at h
  rcases List.mem_append.mp h with h | h
  · split at h
    · exact absurd h (List.not_mem_nil d)
    · exact ⟨true, _, by simpa using h⟩
  · split at h
    · exact absurd h (List.not_mem_nil d)
    · exact ⟨false, _, by simpa using h⟩

/-- Phase-1 diagnostics are empty exactly when the two type sets agree. -/
theorem typeDiags_eq_nil_iff {t1 t2 : List (List Nat)} :
    typeDiags t1 t2 = [] ↔ (∀ x ∈ t1, x ∈ t2) ∧ (∀ x ∈ t2, x ∈ t1) := by
  simp [typeDiags, List.append_eq_nil, ite_nil_cons, List.isEmpty_iff,
    List.filter_eq_nil_iff]

/-- Phase-2 diagnostics for one type are empty exactly when the two triple
sets coincide. -/
theorem phase2For_eq_nil_iff (o1 o2 : List PdfObj) (ty : List Nat) :
    phase2For o1 o2 ty = [] ↔
      (∀ x ∈ triplesOf o1 ty, x ∈ triplesOf o2 ty) ∧
        (∀ x ∈ triplesOf o2 ty, x ∈ triplesOf o1 ty) := by
  simp [phase2For, List.append_eq_nil, ite_nil_cons, List.isEmpty_iff,
    List.filter_eq_nil_iff]

/-- All phase-2 diagnostics are empty exactly when the triple sets coincide
for every type of the first document. -/
theorem p2All_eq_nil_iff (o1 o2 : List PdfObj) :
    p2All o1 o2 = [] ↔ ∀ ty ∈ dtypes o1,
      (∀ x ∈ triplesOf o1 ty, x ∈ triplesOf o2 ty) ∧
        (∀ x ∈ triplesOf o2 ty, x ∈ triplesOf o1 ty) := by
  rw [p2All, List.flatMap_eq_nil_iff]
  exact forall₂_congr (fun ty _ => phase2For_eq_nil_iff o1 o2 ty)

/-- All phase-3 diagnostics are empty exactly when every zipped pair agrees on
its `line_no` component. -/
theorem p3All_eq_nil_iff (o1 o2 : List PdfObj) :
    p3All o1 o2 = [] ↔ ∀ ty ∈ dtypes o1,
      ∀ z ∈ (sortTriples (triplesList o1 ty)).zip (sortTriples (triplesList o2 ty)),
        z.1.1 = z.2.1 := by
  rw [p3All, List.flatMap_eq_nil_iff]
  refine forall₂_congr (fun ty _ => ?_)
  rw [phase3For, List.flatMap_eq_nil_iff]
  exact forall₂_congr (fun z _ => ite_nil_singleton_prop)

/-- The differ, written as one nested conditional. -/
theorem compareScanned_def (o1 o2 : List PdfObj) :
    compareScanned o1 o2 =
      (if (typeDiags (dtypes o1) (dtypes o2)).isEmpty then
        if (p2All o1 o2).isEmpty then
          (if (p3All o1 o2).isEmpty then ⟨true, []⟩ else ⟨false, p3All o1 o2⟩)
        else ⟨false, p2All o1 o2⟩
      else ⟨false, typeDiags (dtypes o1) (dtypes o2)⟩) := rfl

/-- The verdict bit as a conjunction of the three phases' emptiness. -/
theorem compareScanned_matched (o1 o2 : List PdfObj) :
    (compareScanned o1 o2).matched =
      ((typeDiags (dtypes o1) (dtypes o2)).isEmpty && (p2All o1 o2).isEmpty &&
        (p3All o1 o2).isEmpty) := by
  rw [compareScanned_def]
  cases h1 : (typeDiags (dtypes o1) (dtypes o2)).isEmpty <;>
    cases h2 : (p2All o1 o2).isEmpty <;>
      cases h3 : (p3All o1 o2).isEmpty <;> simp [h1, h2, h3]

theorem zip_self {α : Type} (l : List α) : l.zip l = l.map (fun x => (x, x)) := by
  induction l with
  | nil => rfl
  | cons a t ih => simp [List.zip_cons_cons, ih]

/-- Comparing a document's objects with themselves succeeds with an empty
report. -/
theorem compareScanned_self (o : List PdfObj) : compareScanned o o = ⟨true, []⟩ := by
  have htd : typeDiags (dtypes o) (dtypes o) = [] :=
    typeDiags_eq_nil_iff.mpr ⟨fun x h => h, fun x h => h⟩
  have hp2 : p2All o o = [] :=
    (p2All_eq_nil_iff o o).mpr (fun ty _ => ⟨fun x h => h, fun x h => h⟩)
  have hp3 : p3All o o = [] := by
    refine (p3All_eq_nil_iff o o).mpr (fun ty _ z hz => ?_)
    rw [zip_self] at hz
    obtain ⟨x, _, rfl⟩ := List.mem_map.mp hz
    rfl
  rw [compareScanned_def]
  simp [htd, hp2, hp3]

/-- Emptiness of phase 2 is direction-independent once the type sets agree. -/
theorem p2_symm (o1 o2 : List PdfObj) (hts : ∀ x, x ∈ dtypes o1 ↔ x ∈ dtypes o2) :
    (p2All o1 o2 = [] ↔ p2All o2 o1 = []) := by
  rw [p2All_eq_nil_iff, p2All_eq_nil_iff]
  constructor
  · intro h ty hty
    exact ⟨(h ty ((hts ty).mpr hty)).2, (h ty ((hts ty).mpr hty)).1⟩
  · intro h ty hty
    exact ⟨(h ty ((hts ty).mp hty)).2, (h ty ((hts ty).mp hty)).1⟩

/-- Emptiness of phase 3 is direction-independent once the type sets agree. -/
theorem p3_symm (o1 o2 : List PdfObj) (hts : ∀ x, x ∈ dtypes o1 ↔ x ∈ dtypes o2) :
    (p3All o1 o2 = [] ↔ p3All o2 o1 = []) := by
  rw [p3All_eq_nil_iff, p3All_eq_nil_iff]
  constructor
  · intro h ty hty z hz
    rw [← List.zip_swap] at hz
    obtain ⟨w, hw, rfl⟩ := List.mem_map.mp hz
    exact (h ty ((hts ty).mpr hty) w hw).symm
  · intro h ty hty z hz
    rw [← List.zip_swap] at hz
    obtain ⟨w, hw, rfl⟩ := List.mem_map.mp hz
    exact (h ty ((hts ty).mp hty) w hw).symm

theorem isEmpty_false_of_ne {α : Type} {l : List α} (hl : l ≠ []) : l.isEmpty = false := by
  cases l with
  | nil => exact absurd rfl hl
  | cons a t => rfl

/-- The verdict bit does not depend on the argument order. -/
theorem compareScanned_matched_symm (o1 o2 : List PdfObj) :
    (compareScanned o1 o2).matched = (compareScanned o2 o1).matched := by
  rw [compareScanned_matched, compareScanned_matched]
  by_cases htd : typeDiags (dtypes o1) (dtypes o2) = []
  · have hts : ∀ x, x ∈ dtypes o1 ↔ x ∈ dtypes o2 := by
      obtain ⟨h1, h2⟩ := typeDiags_eq_nil_iff.mp htd
      exact fun x => ⟨h1 x, h2 x⟩
    have htd2 : typeDiags (dtypes o2) (dtypes o1) = [] :=
      typeDiags_eq_nil_iff.mpr ⟨fun x hx => (hts x).mpr hx, fun x hx => (hts x).mp hx⟩
    rw [htd, htd2]
    simp only [List.isEmpty_nil, Bool.true_and]
    by_cases hp2 : p2All o1 o2 = []
    · have hp2b : p2All o2 o1 = [] := (p2_symm o1 o2 hts).mp hp2
      rw [hp2, hp2b]
      simp only [List.isEmpty_nil, Bool.true_and]
      by_cases hp3 : p3All o1 o2 = []
      · rw [hp3, (p3_symm o1 o2 hts).mp hp3]
      · have hp3b : p3All o2 o1 ≠ [] := fun hc => hp3 ((p3_symm o1 o2 hts).mpr hc)
        rw [isEmpty_false_of_ne hp3, isEmpty_false_of_ne hp3b]
    · have hp2b : p2All o2 o1 ≠ [] := fun hc => hp2 ((p2_symm o1 o2 hts).mpr hc)
      rw [isEmpty_false_of_ne hp2, isEmpty_false_of_ne hp2b]
      simp
  · have htd2 : typeDiags (dtypes o2) (dtypes o1) ≠ [] := by
      intro hc
      obtain ⟨h1, h2⟩ := typeDiags_eq_nil_iff.mp hc
      exact htd (typeDiags_eq_nil_iff.mpr ⟨fun x hx => h2 x hx, fun x hx => h1 x hx⟩)
    rw [isEmpty_false_of_ne htd, isEmpty_false_of_ne htd2]
    simp

/-- Success of the whole engine does not depend on the argument order. -/
theorem compare_pdfs_isOk_symm (a b : List Nat) :
    (compare_pdfs a b).isOk = (compare_pdfs b a).isOk := by
  unfold compare_pdfs
  cases ha : scan a <;> cases hb : scan b <;> simp [Except.isOk, Except.toBool]

/-- A per-type triple list taken from strictly line-ordered objects has
strictly increasing `line_no` keys. -/
theorem triplesList_key_lt {objs : List PdfObj} (ty : List Nat)
    (h : List.Pairwise (fun a b => a.lineNo < b.lineNo) objs) :
    List.Pairwise (fun a b : Triple => a.1 < b.1) (triplesList objs ty) := by
  unfold triplesList
  exact List.Pairwise.map _ (fun a b hab => hab) (h.filter _)

/-- Sorting a list that is already strictly key-increasing is the identity. -/
theorem sorted_of_key_lt {l : List Triple}
    (h : List.Pairwise (fun a b : Triple => a.1 < b.1) l) : sortTriples l = l :=
  List.Sorted.insertionSort_eq (h.imp (fun hab => le_of_lt hab))

/-- Two strictly key-increasing triple lists with the same members are equal. -/
theorem key_lt_ext : ∀ {l1 l2 : List Triple},
    List.Pairwise (fun a b : Triple => a.1 < b.1) l1 →
    List.Pairwise (fun a b : Triple => a.1 < b.1) l2 →
    (∀ x, x ∈ l1 ↔ x ∈ l2) → l1 = l2 := by
  intro l1
  induction l1 with
  | nil =>
    intro l2 _ _ hm
    cases l2 with
    | nil => rfl
    | cons b t2 => exact absurd ((hm b).mpr (List.mem_cons_self b t2)) (List.not_mem_nil b)
  | cons a t1 ih =>
    intro l2 h1 h2 hm
    cases l2 with
    | nil => exact absurd ((hm a).mp (List.mem_cons_self a t1)) (List.not_mem_nil a)
    | cons b t2 =>
      have hab : a = b := by
        rcases List.mem_cons.mp ((hm a).mp (List.mem_cons_self a t1)) with h | h
        · exact h
        · rcases List.mem_cons.mp ((hm b).mpr (List.mem_cons_self b t2)) with h' | h'
          · exact h'.symm
          · have hba := List.rel_of_pairwise_cons h2 h
            have hab2 := List.rel_of_pairwise_cons h1 h'
            omega
      subst hab
      have hmt : ∀ x, x ∈ t1 ↔ x ∈ t2 := by
        intro x
        constructor
        · intro hx
          rcases List.mem_cons.mp ((hm x).mp (List.mem_cons_of_mem a hx)) with h | h
          · subst h
            exact absurd (List.rel_of_pairwise_cons h1 hx) (lt_irrefl _)
          · exact h
        · intro hx
          rcases List.mem_cons.mp ((hm x).mpr (List.mem_cons_of_mem a hx)) with h | h
          · subst h
            exact absurd (List.rel_of_pairwise_cons h2 hx) (lt_irrefl _)
          · exact h
      rw [ih h1.of_cons h2.of_cons hmt]

/-- On scanner outputs, an empty phase 2 forces an empty phase 3. -/
theorem p3All_nil_of_scan {a b : List Nat} {o1 o2 : List PdfObj}
    (ha : scan a = .ok o1) (hb : scan b = .ok o2) (hp2 : p2All o1 o2 = []) :
    p3All o1 o2 = [] := by
  refine (p3All_eq_nil_iff o1 o2).mpr (fun ty hty z hz => ?_)
  have hk1 := triplesList_key_lt ty (scan_pairwise ha)
  have hk2 := triplesList_key_lt ty (scan_pairwise hb)
  have hmem := (p2All_eq_nil_iff o1 o2).mp hp2 ty hty
  have hm : ∀ x, x ∈ triplesList o1 ty ↔ x ∈ triplesList o2 ty := by
    intro x
    constructor
    · intro hx
      have hh := hmem.1 x (List.mem_dedup.mpr hx)
      exact List.mem_dedup.mp hh
    · intro hx
      have hh := hmem.2 x (List.mem_dedup.mpr hx)
      exact List.mem_dedup.mp hh
  have heq : triplesList o1 ty = triplesList o2 ty := key_lt_ext hk1 hk2 hm
  rw [heq, sorted_of_key_lt hk2, zip_self] at hz
  obtain ⟨x, _, rfl⟩ := List.mem_map.mp hz
  rfl

/-- The differ with phase 3 removed, as one nested conditional. -/
theorem compareScannedNoPhase3_def (o1 o2 : List PdfObj) :
    compareScannedNoPhase3 o1 o2 =
      (if (typeDiags (dtypes o1) (dtypes o2)).isEmpty then
        if (p2All o1 o2).isEmpty then ⟨true, []⟩ else ⟨false, p2All o1 o2⟩
      else ⟨false, typeDiags (dtypes o1) (dtypes o2)⟩) := rfl

/-- A triple in exactly one side's set of a shared type contributes its
rendering to the phase-2 diagnostics (`s = true` when the extra triple is in
the first document). -/
theorem renderDiag_mem_p2All {o1 o2 : List PdfObj} {ty : List Nat} {x : Triple} {s : Bool}
    (hty : ty ∈ dtypes o1)
    (hm : x ∈ triplesOf (if s then o1 else o2) ty)
    (hn : x ∉ triplesOf (if s then o2 else o1) ty) :
    renderDiag s x ∈ p2All o1 o2 := by
  refine List.mem_flatMap.mpr ⟨ty, hty, ?_⟩
  unfold phase2For
  cases s with
  | true =>
    replace hm : x ∈ triplesOf o1 ty := hm
    replace hn : x ∉ triplesOf o2 ty := hn
    have hx12 : x ∈ (triplesOf o1 ty).filter (fun y => !decide (y ∈ triplesOf o2 ty)) :=
      List.mem_filter.mpr ⟨hm, by simp [hn]⟩
    refine List.mem_append_left _ ?_
    rw [if_neg (fun hc => (List.ne_nil_of_mem hx12) (List.isEmpty_iff.mp hc))]
    exact List.mem_cons_of_mem _ (List.mem_map_of_mem _ hx12)
  | false =>
    replace hm : x ∈ triplesOf o2 ty := hm
    replace hn : x ∉ triplesOf o1 ty := hn
    have hx21 : x ∈ (triplesOf o2 ty).filter (fun y => !decide (y ∈ triplesOf o1 ty)) :=
      List.mem_filter.mpr ⟨hm, by simp [hn]⟩
    refine List.mem_append_right _ ?_
    rw [if_neg (fun hc => (List.ne_nil_of_mem hx21) (List.isEmpty_iff.mp hc))]
    exact List.mem_cons_of_mem _ (List.mem_map_of_mem _ hx21)

/-- Every phase-2 diagnostic is a header or the rendering of a triple of the
corresponding document. -/
theorem phase2For_mem_shape {o1 o2 : List PdfObj} {ty : List Nat} {d : Diag}
    (h : d ∈ phase2For o1 o2 ty) :
    (∃ s n, d = Diag.diffHeader s ty n) ∨
      (∃ x, x ∈ triplesOf o1 ty ∧ d = renderDiag true x) ∨
      (∃ x, x ∈ triplesOf o2 ty ∧ d = renderDiag false x) := by
  simp only [phase2For] at h
  rcases List.mem_append.mp h with h | h
  · split at h
    · exact absurd h (List.not_mem_nil d)
    · rcases List.mem_cons.mp h with h | h
      · exact Or.inl ⟨true, _, h⟩
      · obtain ⟨x, hx, rfl⟩ := List.mem_map.mp h
        exact Or.inr (Or.inl ⟨x, (List.mem_filter.mp hx).1, rfl⟩)
  · split at h
    · exact absurd h (List.not_mem_nil d)
    · rcases List.mem_cons.mp h with h | h
      · exact Or.inl ⟨false, _, h⟩
      · obtain ⟨x, hx, rfl⟩ := List.mem_map.mp h
        exact Or.inr (Or.inr ⟨x, (List.mem_filter.mp hx).1, rfl⟩)

/-- Every phase-3 diagnostic is a positional-mismatch line. -/
theorem p3All_mem_shape {o1 o2 : List PdfObj} {d : Diag} (h : d ∈ p3All o1 o2) :
    ∃ c1 c2, d = Diag.posDiag c1 c2 := by
  obtain ⟨ty, _, h⟩ := List.mem_flatMap.mp h
  rw [phase3For] at h
  obtain ⟨z, _, h⟩ := List.mem_flatMap.mp h
  split at h
  · exact absurd h (List.not_mem_nil d)
  · exact ⟨_, _, by simpa using h⟩

/-- Phase-1 short-circuit: differing type sets fix the verdict and report. -/
theorem compareScanned_of_td_ne {o1 o2 : List PdfObj}
    (h : typeDiags (dtypes o1) (dtypes o2) ≠ []) :
    compareScanned o1 o2 = ⟨false, typeDiags (dtypes o1) (dtypes o2)⟩ := by
  have hc : ¬ ((typeDiags (dtypes o1) (dtypes o2)).isEmpty = true) := by
    simp [isEmpty_false_of_ne h]
  rw [compareScanned_def, if_neg hc]

/-- Phase-2 short-circuit: with equal type sets and a non-empty phase 2, the
verdict is `false` with exactly the phase-2 report. -/
theorem compareScanned_of_p2_ne {o1 o2 : List PdfObj}
    (htd : typeDiags (dtypes o1) (dtypes o2) = []) (h : p2All o1 o2 ≠ []) :
    compareScanned o1 o2 = ⟨false, p2All o1 o2⟩ := by
  have hc : ¬ ((p2All o1 o2).isEmpty = true) := by simp [isEmpty_false_of_ne h]
  rw [compareScanned_def, if_pos (by rw [htd]; rfl), if_neg hc]

/-- With empty phases 1 and 2 and a non-empty phase 3, the verdict is `false`
with exactly the phase-3 report. -/
theorem compareScanned_of_p3_ne {o1 o2 : List PdfObj}
    (htd : typeDiags (dtypes o1) (dtypes o2) = []) (hp2 : p2All o1 o2 = [])
    (h : p3All o1 o2 ≠ []) :
    compareScanned o1 o2 = ⟨false, p3All o1 o2⟩ := by
  have hc : ¬ ((p3All o1 o2).isEmpty = true) := by simp [isEmpty_false_of_ne h]
  rw [compareScanned_def, if_pos (by rw [htd]; rfl), if_pos (by rw [hp2]; rfl), if_neg hc]

/-- With all three phases empty, the verdict is `true` with an empty report. -/
theorem compareScanned_of_all_nil {o1 o2 : List PdfObj}
    (htd : typeDiags (dtypes o1) (dtypes o2) = []) (hp2 : p2All o1 o2 = [])
    (hp3 : p3All o1 o2 = []) : compareScanned o1 o2 = ⟨true, []⟩ := by
  rw [compareScanned_def, if_pos (by rw [htd]; rfl), if_pos (by rw [hp2]; rfl),
    if_pos (by rw [hp3]; rfl)]

/-- C1, counterexample.  The claim predicts that the FIRST `/Type` line fixes
the declared type: on `exTwoTypes` the first `/Type` line extracts `A`
(code point 65), yet the scanner emits the object with declared type `B`
(code point 66), because line 50 of `src/main.py` overwrites
`cur_object_type` on every `/Type` line. -/
theorem c1_counterexample :
    scan exTwoTypes = Except.ok [exTwoTypesObj] ∧
      extractType [47, 84, 121, 112, 101, 32, 47, 65, 10] = Except.ok [65] ∧
      exTwoTypesObj.objType = [66] ∧ ([66] : List Nat) ≠ [65] := by
  refine ⟨by decide, by decide, rfl, by decide⟩

/-- C1, amended.  For every scanned object the declared type is determined by
the LAST line of its body containing `/Type` (each such line overwrites the
recorded type with its own extraction — trim, split on single spaces, second
token, first character dropped — as `lastType` folds it), defaulted to
`_none_` when no line carries the marker or the last extraction is empty. -/
theorem c1_declared_type_last_match :
    ∀ bytes objs, scan bytes = .ok objs → ∀ o ∈ objs,
      ∃ t, lastType o.rawLines = .ok t ∧
        o.objType = (if t = [] then noneName else t) := by
  intro bytes objs h o ho
  obtain ⟨l, _, _, _, _, t, ht, hty⟩ := scan_obj_props h o ho
  exact ⟨t, ht, hty⟩

/-- C1, witness of the amended theorem at `exTwoTypes`. -/
theorem c1_witness :
    ∃ t, lastType exTwoTypesObj.rawLines = .ok t ∧
      exTwoTypesObj.objType = (if t = [] then noneName else t) :=
  c1_declared_type_last_match exTwoTypes [exTwoTypesObj] (by decide) exTwoTypesObj
    (by simp)

/-- C4, counterexample.  The claim says the scanner never fails on a readable
stream, whatever the line content; but on `exTypeAlone` (whose `/Type` line
has a single whitespace-delimited token) the extraction of line 51 of
`src/main.py` raises `IndexError`, modelled as this scan error. -/
theorem c4_counterexample : scan exTypeAlone = Except.error ScanErr.badTypeLine := by
  decide

/-- C4, amended.  The scan succeeds on every byte stream all of whose lines
containing `/Type` admit a successful extraction (valid UTF-8 and at least two
space-split tokens after trimming); the only failure modes are the `/Type`
extraction's `UnicodeDecodeError` and `IndexError`. -/
theorem c4_scan_total_when_type_lines_extract :
    ∀ bytes, (∀ l ∈ splitLines bytes,
        containsSeq typeMarker l = true → ∃ t, extractType l = .ok t) →
      ∃ objs, scan bytes = .ok objs :=
  fun bytes h => scan_total bytes h

/-- C4, witness of the amended theorem at `exEndobjLine` (no `/Type` line). -/
theorem c4_witness : ∃ objs, scan exEndobjLine = .ok objs :=
  c4_scan_total_when_type_lines_extract exEndobjLine
    (fun l hl hty => absurd hty (by rw [List.mem_singleton.mp hl]; decide))

/-- C7, counterexample.  The claim says comparing ANY byte stream with a
byte-identical copy of itself yields `matched = true` with an empty report;
but on `exTypeAlone` both scans raise, so the engine propagates the exception
and yields no verdict at all. -/
theorem c7_counterexample :
    compare_pdfs exTypeAlone exTypeAlone = Except.error ScanErr.badTypeLine := by
  decide

/-- C7, amended.  For every byte stream the scanner succeeds on, comparing it
against a byte-identical copy of itself yields `matched = true` with an empty
report. -/
theorem c7_idempotent_on_scannable :
    ∀ a objs, scan a = .ok objs → compare_pdfs a a = Except.ok ⟨true, []⟩ := by
  intro a objs h
  unfold compare_pdfs
  simp only [h]
  rw [compareScanned_self]

/-- C7, witness of the amended theorem at `exEndobjLine`. -/
theorem c7_witness : compare_pdfs exEndobjLine exEndobjLine = Except.ok ⟨true, []⟩ :=
  c7_idempotent_on_scannable exEndobjLine [exEndobjObj] (by decide)

/-- C10, counterexample.  The claim says EVERY line containing `endobj` seen
outside an object yields a single-line object; but the line `endobj/Type`
also contains `/Type` as part of a single token, so the extraction raises and
no object is emitted. -/
theorem c10_counterexample : scan exEndobjType = Except.error ScanErr.badTypeLine := by
  decide

/-- C10, amended.  A line containing `endobj` processed while the scanner is
outside any object (so, by the invariant, with initial pending type and stream
flag) opens and closes an object in the same iteration, because `endobj`
contains the open marker `obj`: the emitted object consists of that one line
(raw content equal to the line itself), closes at that line's number, has
declared type `_none_` when the line carries no `/Type` marker, and otherwise
the (`_none_`-defaulted) extraction of the line — provided that extraction
succeeds; such lines are never discarded. -/
theorem c10_endobj_line_opens_and_closes :
    ∀ (ln : Nat) (line : List Nat) (st : ScanState),
      st.inObj = false → st.curType = [] → st.hasStream = false →
      containsSeq endobjMarker line = true →
      (containsSeq typeMarker line = false →
        scanStep ln line st =
          .ok (initState, [⟨ln, [line], noneName, line, containsSeq streamMarker line⟩])) ∧
      (containsSeq typeMarker line = true → ∀ t, extractType line = .ok t →
        scanStep ln line st =
          .ok (initState,
            [⟨ln, [line], (if t = [] then noneName else t), line,
              containsSeq streamMarker line⟩])) := by
  intro ln line st h1 h2 h3 h4
  have hobj := obj_of_endobj h4
  obtain ⟨io, co, ct, hs⟩ := st
  replace h1 : io = false := h1
  replace h2 : ct = [] := h2
  replace h3 : hs = false := h3
  subst h1
  subst h2
  subst h3
  have hopen : openStep line (⟨false, co, [], false⟩ : ScanState) = ⟨true, [], [], false⟩ := by
    unfold openStep
    rw [if_pos (by simp [hobj])]
  constructor
  · intro hty
    have hbody : bodyStep line (⟨true, [], [], false⟩ : ScanState) =
        .ok ⟨true, [line], [], containsSeq streamMarker line⟩ := by
      unfold bodyStep streamStep
      rw [if_pos rfl, if_neg (by simp [hty])]
      cases hsm : containsSeq streamMarker line with
      | true => simp [hsm]
      | false => simp [hsm]
    unfold scanStep
    rw [hopen, hbody]
    show Except.ok (closeStep ln line ⟨true, [line], [], containsSeq streamMarker line⟩) = _
    unfold closeStep
    rw [if_pos h4]
    rfl
  · intro hty t hext
    have hbody : bodyStep line (⟨true, [], [], false⟩ : ScanState) =
        .ok ⟨true, [line], t, containsSeq streamMarker line⟩ := by
      unfold bodyStep streamStep
      rw [if_pos rfl, if_pos hty]
      simp only [hext]
      cases hsm : containsSeq streamMarker line with
      | true => simp [hsm]
      | false => simp [hsm]
    unfold scanStep
    rw [hopen, hbody]
    show Except.ok (closeStep ln line ⟨true, [line], t, containsSeq streamMarker line⟩) = _
    unfold closeStep
    rw [if_pos h4]
    rfl

/-- C10, witness of the amended theorem: the bare `endobj` line at position 0
in the initial state emits the expected single-line `_none_` object. -/
theorem c10_witness :
    scanStep 0 [101, 110, 100, 111, 98, 106, 10] initState =
      .ok (initState,
        [⟨0, [[101, 110, 100, 111, 98, 106, 10]], noneName,
          [101, 110, 100, 111, 98, 106, 10],
          containsSeq streamMarker [101, 110, 100, 111, 98, 106, 10]⟩]) :=
  (c10_endobj_line_opens_and_closes 0 [101, 110, 100, 111, 98, 106, 10] initState
    rfl rfl rfl (by decide)).1 (by decide)

/-- C2.  Once phase 1 passes, for a type present in both documents every
triple `(start_line, raw_content, has_stream)` lying in exactly one document's
triple set (`s = true` when it is the first document's) puts its rendering in
the report and makes the verdict `matched = false`; in particular a
`raw_content` difference alone, with equal `start_line`, suffices (see the
witness). -/
theorem c2_phase2_reports_symmetric_difference :
    ∀ (objs1 objs2 : List PdfObj) (ty : List Nat) (x : Triple) (s : Bool),
      typeDiags (dtypes objs1) (dtypes objs2) = [] →
      ty ∈ dtypes objs1 → ty ∈ dtypes objs2 →
      x ∈ triplesOf (if s then objs1 else objs2) ty →
      x ∉ triplesOf (if s then objs2 else objs1) ty →
      (compareScanned objs1 objs2).matched = false ∧
        renderDiag s x ∈ (compareScanned objs1 objs2).report := by
  intro o1 o2 ty x s htd hty1 _hty2 hm hn
  have hmem := renderDiag_mem_p2All hty1 hm hn
  have hrep := compareScanned_of_p2_ne htd (List.ne_nil_of_mem hmem)
  rw [hrep]
  exact ⟨rfl, hmem⟩

/-- C2, witness: two one-object documents of type `_none_`, same `start_line`
5, raw contents `abc` versus `abd`, no stream: the verdict is `false` and the
extra triple of document 1 is reported. -/
theorem c2_witness :
    (compareScanned wNonStream1 wNonStream2).matched = false ∧
      renderDiag true (5, [97, 98, 99], false) ∈
        (compareScanned wNonStream1 wNonStream2).report :=
  c2_phase2_reports_symmetric_difference wNonStream1 wNonStream2 noneName
    (5, [97, 98, 99], false) true (by decide) (by decide) (by decide) (by decide)
    (by decide)

/-- C3.  When the two documents' sets of distinct declared types differ, the
verdict is `matched = false`, the report is exactly the phase-1 type-set
diagnostics (so phases 2 and 3 contribute nothing), and every type present in
one document but absent from the other is listed in the corresponding
`typesOnly` line of the report. -/
theorem c3_type_set_short_circuit :
    ∀ objs1 objs2 : List PdfObj,
      (¬ ∀ t, t ∈ dtypes objs1 ↔ t ∈ dtypes objs2) →
      (compareScanned objs1 objs2).matched = false ∧
        (compareScanned objs1 objs2).report =
          typeDiags (dtypes objs1) (dtypes objs2) ∧
        (∀ d ∈ (compareScanned objs1 objs2).report, ∃ s ts, d = Diag.typesOnly s ts) ∧
        (∀ t, t ∈ dtypes objs1 → t ∉ dtypes objs2 →
          Diag.typesOnly true
              ((dtypes objs1).filter (fun u => !decide (u ∈ dtypes objs2))) ∈
            (compareScanned objs1 objs2).report ∧
          t ∈ (dtypes objs1).filter (fun u => !decide (u ∈ dtypes objs2))) ∧
        (∀ t, t ∈ dtypes objs2 → t ∉ dtypes objs1 →
          Diag.typesOnly false
              ((dtypes objs2).filter (fun u => !decide (u ∈ dtypes objs1))) ∈
            (compareScanned objs1 objs2).report ∧
          t ∈ (dtypes objs2).filter (fun u => !decide (u ∈ dtypes objs1))) := by
  intro o1 o2 h
  have htd : typeDiags (dtypes o1) (dtypes o2) ≠ [] := by
    intro hc
    obtain ⟨h1, h2⟩ := typeDiags_eq_nil_iff.mp hc
    exact h (fun t => ⟨h1 t, h2 t⟩)
  have hrep := compareScanned_of_td_ne htd
  rw [hrep]
  refine ⟨rfl, rfl, fun d hd => typeDiags_shape hd, ?_, ?_⟩
  · intro t ht1 ht2
    have htf : t ∈ (dtypes o1).filter (fun u => !decide (u ∈ dtypes o2)) :=
      List.mem_filter.mpr ⟨ht1, by simp [ht2]⟩
    refine ⟨?_, htf⟩
    unfold typeDiags
    refine List.mem_append_left _ ?_
    rw [if_neg (fun hc => (List.ne_nil_of_mem htf) (List.isEmpty_iff.mp hc))]
    exact List.mem_cons_self _ _
  · intro t ht2 ht1
    have htf : t ∈ (dtypes o2).filter (fun u => !decide (u ∈ dtypes o1)) :=
      List.mem_filter.mpr ⟨ht2, by simp [ht1]⟩
    refine ⟨?_, htf⟩
    unfold typeDiags
    refine List.mem_append_right _ ?_
    rw [if_neg (fun hc => (List.ne_nil_of_mem htf) (List.isEmpty_iff.mp hc))]
    exact List.mem_cons_self _ _

/-- C3, witness: a type-`A` document against a `_none_` document. -/
theorem c3_witness : (compareScanned wTypeA wNonStream1).matched = false :=
  (c3_type_set_short_circuit wTypeA wNonStream1
    (fun hall => absurd ((hall [65]).mp (by decide)) (by decide))).1

/-- C5.  Every scanned object's `start_line` is the 0-indexed number of a line
of the input containing the close marker `endobj` — namely the last line of
the object's own raw lines, its closing line, not its opening one — and
phase 3 orders each type's triples by exactly this first component (the sort
is a permutation that is sorted under the `line_no` key order `leKey`). -/
theorem c5_start_line_is_close_marker :
    (∀ bytes objs, scan bytes = .ok objs → ∀ o ∈ objs,
      ∃ l, (splitLines bytes).get? o.lineNo = some l ∧
        containsSeq endobjMarker l = true ∧ o.rawLines.getLast? = some l) ∧
    (∀ ts : List Triple,
      List.Pairwise leKey (sortTriples ts) ∧ (sortTriples ts).Perm ts) := by
  constructor
  · intro bytes objs h o ho
    obtain ⟨l, hg, hend, hlast, _, _⟩ := scan_obj_props h o ho
    exact ⟨l, hg, hend, hlast⟩
  · intro ts
    exact ⟨List.sorted_insertionSort leKey ts, List.perm_insertionSort leKey ts⟩

/-- C5, witness at the single-object document `exEndobjLine`. -/
theorem c5_witness :
    ∃ l, (splitLines exEndobjLine).get? exEndobjObj.lineNo = some l ∧
      containsSeq endobjMarker l = true ∧ exEndobjObj.rawLines.getLast? = some l :=
  c5_start_line_is_close_marker.1 exEndobjLine [exEndobjObj] (by decide) exEndobjObj
    (by simp)

/-- C6.  Stream redaction in phase 2: any `rawDiag` (the only report line that
carries raw content bytes of a phase-2 discrepancy) stems from a triple whose
`has_stream` flag is `false`; and a triple with `has_stream = true` lying in
exactly one side's set is reported as a `streamDiag`, which carries only its
line number and the byte length of its raw content, never the bytes. -/
theorem c6_stream_redaction :
    ∀ objs1 objs2 : List PdfObj,
      (∀ s ln c, Diag.rawDiag s ln c ∈ (compareScanned objs1 objs2).report →
        ∃ ty, ty ∈ dtypes objs1 ∧
          ((ln, c, false) ∈ triplesOf objs1 ty ∨ (ln, c, false) ∈ triplesOf objs2 ty)) ∧
      (∀ (ty : List Nat) (x : Triple) (s : Bool),
        typeDiags (dtypes objs1) (dtypes objs2) = [] → ty ∈ dtypes objs1 →
        x ∈ triplesOf (if s then objs1 else objs2) ty →
        x ∉ triplesOf (if s then objs2 else objs1) ty → x.2.2 = true →
        Diag.streamDiag s x.1 x.2.1.length ∈ (compareScanned objs1 objs2).report) := by
  intro o1 o2
  constructor
  · intro s ln c h
    by_cases htd : typeDiags (dtypes o1) (dtypes o2) = []
    · by_cases hp2 : p2All o1 o2 = []
      · by_cases hp3 : p3All o1 o2 = []
        · rw [compareScanned_of_all_nil htd hp2 hp3] at h
          exact absurd h (List.not_mem_nil _)
        · rw [compareScanned_of_p3_ne htd hp2 hp3] at h
          obtain ⟨c1, c2, hpd⟩ := p3All_mem_shape h
          exact Diag.noConfusion hpd
      · rw [compareScanned_of_p2_ne htd hp2] at h
        obtain ⟨ty, hty, hph⟩ := List.mem_flatMap.mp h
        rcases phase2For_mem_shape hph with ⟨s', n, hd⟩ | ⟨x, hx, hd⟩ | ⟨x, hx, hd⟩
        · exact Diag.noConfusion hd
        · unfold renderDiag at hd
          split at hd
          · exact Diag.noConfusion hd
          · rename_i hxs
            injection hd with hs hln hc
            refine ⟨ty, hty, Or.inl ?_⟩
            have hx3 : x.2.2 = false := by simpa using hxs
            have hxe : ((ln, c, false) : Triple) = x := by
              rw [hln, hc, ← hx3]
            rw [hxe]
            exact hx
        · unfold renderDiag at hd
          split at hd
          · exact Diag.noConfusion hd
          · rename_i hxs
            injection hd with hs hln hc
            refine ⟨ty, hty, Or.inr ?_⟩
            have hx3 : x.2.2 = false := by simpa using hxs
            have hxe : ((ln, c, false) : Triple) = x := by
              rw [hln, hc, ← hx3]
            rw [hxe]
            exact hx
    · rw [compareScanned_of_td_ne htd] at h
      obtain ⟨s', ts, hts⟩ := typeDiags_shape h
      exact Diag.noConfusion hts
  · intro ty x s htd hty hm hn hxs
    have hmem := renderDiag_mem_p2All hty hm hn
    have hrep := compareScanned_of_p2_ne htd (List.ne_nil_of_mem hmem)
    rw [hrep]
    have hr : renderDiag s x = Diag.streamDiag s x.1 x.2.1.length := by
      unfold renderDiag
      rw [if_pos hxs]
    rw [← hr]
    exact hmem

/-- C6, witness: two one-object stream documents with differing contents; the
extra stream triple of document 1 (line 5, 3 content bytes) is reported as a
length-only `streamDiag`. -/
theorem c6_witness :
    Diag.streamDiag true 5 3 ∈ (compareScanned wStream1 wStream2).report :=
  (c6_stream_redaction wStream1 wStream2).2 noneName (5, [97, 98, 99], true) true
    (by decide) (by decide) (by decide) (by decide) rfl

/-- C8.  The verdict is symmetric in the argument order: the engine succeeds
on `(A, B)` exactly when it succeeds on `(B, A)`, and when both runs produce
verdicts the `matched` bits coincide. -/
theorem c8_matched_symmetric :
    ∀ a b : List Nat,
      ((compare_pdfs a b).isOk = (compare_pdfs b a).isOk) ∧
      (∀ v w, compare_pdfs a b = .ok v → compare_pdfs b a = .ok w →
        v.matched = w.matched) := by
  intro a b
  refine ⟨compare_pdfs_isOk_symm a b, fun v w hv hw => ?_⟩
  unfold compare_pdfs at hv hw
  cases ha : scan a with
  | error e =>
    simp only [ha] at hv
    exact Except.noConfusion hv
  | ok o1 =>
    simp only [ha] at hv hw
    cases hb : scan b with
    | error e =>
      simp only [hb] at hv
      exact Except.noConfusion hv
    | ok o2 =>
      simp only [hb] at hv hw
      injection hv with hv
      injection hw with hw
      subst hv
      subst hw
      exact compareScanned_matched_symm o1 o2

/-- C8, witness: the empty stream against `exEndobjLine`, in both orders. -/
theorem c8_witness :
    ((compare_pdfs [] exEndobjLine).isOk = (compare_pdfs exEndobjLine []).isOk) ∧
      (Verdict.mk false [Diag.typesOnly false [noneName]]).matched =
        (Verdict.mk false [Diag.typesOnly true [noneName]]).matched :=
  ⟨(c8_matched_symmetric [] exEndobjLine).1,
    (c8_matched_symmetric [] exEndobjLine).2 _ _ (by decide) (by decide)⟩

/-- C9.  On scanner outputs, phase 3 is redundant: the differ with phase 3
produces the same verdict and the same report as the differ without it — when
phases 1 and 2 find nothing, every zipped pair of per-type triples sorted by
`start_line` agrees on its `start_line` components, so phase 3 finds nothing
either. -/
theorem c9_phase3_redundant :
    ∀ (a b : List Nat) (o1 o2 : List PdfObj), scan a = .ok o1 → scan b = .ok o2 →
      compareScanned o1 o2 = compareScannedNoPhase3 o1 o2 := by
  intro a b o1 o2 ha hb
  rw [compareScanned_def, compareScannedNoPhase3_def]
  by_cases htd : (typeDiags (dtypes o1) (dtypes o2)).isEmpty = true
  · rw [if_pos htd, if_pos htd]
    by_cases hp2 : (p2All o1 o2).isEmpty = true
    · rw [if_pos hp2, if_pos hp2, p3All_nil_of_scan ha hb (List.isEmpty_iff.mp hp2)]
      rfl
    · rw [if_neg hp2, if_neg hp2]
  · rw [if_neg htd, if_neg htd]

/-- C9, witness at two copies of the single-object document `exEndobjLine`. -/
theorem c9_witness :
    compareScanned [exEndobjObj] [exEndobjObj] =
      compareScannedNoPhase3 [exEndobjObj] [exEndobjObj] :=
  c9_phase3_redundant exEndobjLine exEndobjLine [exEndobjObj] [exEndobjObj]
    (by decide) (by decide)
